import Mathlib

/-
Verification of the command framing, reassembly, dispatch and
response-encoding engine of the aditboard firmware (src/control/mod.rs).

Modelling conventions:
  * Bytes are Nat (values < 256 in any reachable state, since they come
    from u8 buffers); machine arithmetic is explicit where it matters.
  * Rust code that can panic (out-of-bounds slice indexing, unwrap on a
    full heapless Vec) is embedded as an Option-valued function where
    none models the panic.
  * The three peripheral-family command types and their decoders and
    handlers live in files not present here (control/i2c.rs, gpio.rs,
    led.rs); the development is parameterised over them: arbitrary types
    for the decoded family commands, and arbitrary total functions
    for decode (List Nat to Except CommandError) and execute.
  * Cooperative-async control flow (channel send/receive, awaits) is
    embedded as explicit state passing: the reassembler is a step
    function on its buffer state driven by read/timeout events, and the
    controller loop is a fold over the list of dequeued commands.
-/

namespace Adit

/-- Interpretation of a byte as a Rust i8 (the `buf[0] as i8` cast). -/
def i8ofByte (b : Nat) : Int :=
  if b < 128 then (b : Int) else (b : Int) - 256

/-- Interpretation of an i8 value as a Rust u8 (the `id as u8` cast). -/
def u8ofInt (i : Int) : Nat :=
  (i % 256).toNat

/-- Little-endian encoding of a u16 (`to_le_bytes`). -/
def le16 (n : Nat) : List Nat :=
  [n % 256, n / 256 % 256]

/-- Little-endian decoding of the first two bytes of a buffer
(`u16::from_le_bytes(buf[0..2])`); 0 for absent bytes (unreachable:
callers guard on the buffer length). -/
def declaredLen (b : List Nat) : Nat :=
  b.getD 0 0 + 256 * b.getD 1 0

/-- The family-tag constant for I2C commands (`const I2C_COMMAND: u8 = 5`). -/
def I2C_COMMAND : Nat := 5

/-- The family-tag constant for GPIO commands (`const GPIO_COMMAND: u8 = 6`). -/
def GPIO_COMMAND : Nat := 6

/-- The family-tag constant for LED commands (`const LED_COMMAND: u8 = 8`). -/
def LED_COMMAND : Nat := 8

/-- The closed error set of the protocol (`enum CommandError`).
A Message carries the raw bytes of its static string. -/
inductive CommandError where
  | timeout
  | invalid
  | bufferOverflow
  | message (msg : List Nat)
deriving DecidableEq, Repr

/-- Body of a decoded command (`enum CommandInner`), parameterised over
the three family command types. -/
inductive CommandInner (α β γ : Type) where
  | i2c (c : α)
  | gpio (c : β)
  | led (c : γ)
  | error (e : CommandError)
deriving DecidableEq

/-- A decoded request (`struct Command`): id is the i8 target id,
bus the raw u8 selector. -/
structure Command (α β γ : Type) where
  id : Int
  bus : Nat
  inner : CommandInner α β γ
deriving DecidableEq

variable {α β γ : Type}

/-- The command decoder (`Command::from_bytes`). Input is the frame
bytes without the 2-byte length prefix. The source indexes buf[0] and
buf[2] unconditionally, so an input shorter than 3 bytes panics: that is
the none case. On a recognised tag the family decoder gets the payload
slice buf[3..]; its error propagates (the ? operator). An unknown tag
is CommandError.invalid. -/
def Command.fromBytes (i2cDec : List Nat → Except CommandError α)
    (gpioDec : List Nat → Except CommandError β)
    (ledDec : List Nat → Except CommandError γ) :
    List Nat → Option (Except CommandError (Command α β γ))
  | b0 :: b1 :: b2 :: rest =>
    some (if b2 = I2C_COMMAND then
        (i2cDec rest).map fun c => ⟨i8ofByte b0, b1, CommandInner.i2c c⟩
      else if b2 = GPIO_COMMAND then
        (gpioDec rest).map fun c => ⟨i8ofByte b0, b1, CommandInner.gpio c⟩
      else if b2 = LED_COMMAND then
        (ledDec rest).map fun c => ⟨i8ofByte b0, b1, CommandInner.led c⟩
      else Except.error CommandError.invalid)
  | _ => none

/-- The byte sequence pushed by `CommandError::to_bytes` before the
length field is rewritten: [0x00, 0x00, 0xff] (length placeholder and
target-id placeholder), the code byte, then for Message the raw
text. -/
def CommandError.rawBody : CommandError → List Nat
  | CommandError.timeout => [0x00, 0x00, 0xff] ++ [0x10]
  | CommandError.invalid => [0x00, 0x00, 0xff] ++ [0x11]
  | CommandError.bufferOverflow => [0x00, 0x00, 0xff] ++ [0x12]
  | CommandError.message msg => [0x00, 0x00, 0xff] ++ 0xff :: msg

/-- The error-frame encoder (`CommandError::to_bytes`). The pushes go
into a capacity-260 vector whose overflow is an unwrap panic (none);
finally the first two bytes are overwritten with the total length,
little-endian. -/
def CommandError.toBytes (e : CommandError) : Option (List Nat) :=
  if e.rawBody.length ≤ 260 then
    some (le16 e.rawBody.length ++ e.rawBody.drop 2)
  else none

/-- The success branch of the controller loop (Controller::run, Ok arm):
the length field is res.len() as u16 little-endian, then the id byte,
then the payload. The capacity-260 unwraps cannot fire because the
handler payload type bounds res.len() at 256. -/
def successResponse (id : Int) (res : List Nat) : List Nat :=
  le16 res.length ++ [u8ofInt id] ++ res

/-- Execution dispatch of the controller loop (the match on cmd.inner):
family commands go to their family handler, an error body is returned
as that error. Parameterised over the family handlers. -/
def execInner (hI : α → Except CommandError (List Nat))
    (hG : β → Except CommandError (List Nat))
    (hL : γ → Except CommandError (List Nat)) :
    CommandInner α β γ → Except CommandError (List Nat)
  | CommandInner.i2c c => hI c
  | CommandInner.gpio c => hG c
  | CommandInner.led c => hL c
  | CommandInner.error e => Except.error e

/-- One iteration of Controller::run for a dequeued command: execute,
then encode. The error arm stamps byte 2 of the generic error frame
with the command's id as u8; none models the panic inside to_bytes. -/
def controllerStep (hI : α → Except CommandError (List Nat))
    (hG : β → Except CommandError (List Nat))
    (hL : γ → Except CommandError (List Nat))
    (cmd : Command α β γ) : Option (List Nat) :=
  match execInner hI hG hL cmd.inner with
  | Except.ok res => some (successResponse cmd.id res)
  | Except.error e => (CommandError.toBytes e).map fun b => b.set 2 (u8ofInt cmd.id)

/-- The controller loop over a finite list of dequeued commands, in
queue order; each command contributes exactly one transmitted frame
(the write_packet result is discarded by the source). -/
def controllerRun (hI : α → Except CommandError (List Nat))
    (hG : β → Except CommandError (List Nat))
    (hL : γ → Except CommandError (List Nat)) :
    List (Command α β γ) → Option (List (List Nat))
  | [] => some []
  | c :: cs =>
    match controllerStep hI hG hL c with
    | none => none
    | some f =>
      match controllerRun hI hG hL cs with
      | none => none
      | some rest => some (f :: rest)

/-- An event observed by the reassembly loop in pipe_usb_read: a read
that returned a chunk of bytes, or a read timeout. -/
inductive RxEvent where
  | read (chunk : List Nat)
  | timeout

/-- The body of pipe_usb_read once a read has succeeded, acting on the
filled prefix b of the buffer (stale bytes beyond num_read are never
inspected by the source, so the state is just that prefix). With at
least 5 bytes filled the declared length is parsed; if the frame is
complete, bytes [2..declared) are decoded — one frame at most per read
event — and the leftover bytes are shifted to the front. A declared
length below 2 makes the source slice expression panic (none), and a
decode panic propagates. A decode error is enqueued as a synthetic
command with id -1 and bus 0. -/
def rxReadStep (i2cDec : List Nat → Except CommandError α)
    (gpioDec : List Nat → Except CommandError β)
    (ledDec : List Nat → Except CommandError γ)
    (b : List Nat) : Option (List Nat × Option (Command α β γ)) :=
  if 5 ≤ b.length then
    if declaredLen b ≤ b.length then
      if declaredLen b < 2 then none
      else
        match Command.fromBytes i2cDec gpioDec ledDec
            ((b.drop 2).take (declaredLen b - 2)) with
        | none => none
        | some (Except.ok cmd) =>
          some (b.drop (declaredLen b), some cmd)
        | some (Except.error e) =>
          some (b.drop (declaredLen b),
                some ⟨-1, 0, CommandInner.error e⟩)
    else some (b, none)
  else some (b, none)

/-- One transition of the reassembly loop: a successful read appends its
chunk to the filled prefix and runs the extraction check; a timeout
abandons the partial frame (num_read resets to 0) and emits nothing. -/
def rxStep (i2cDec : List Nat → Except CommandError α)
    (gpioDec : List Nat → Except CommandError β)
    (ledDec : List Nat → Except CommandError γ)
    (st : List Nat) : RxEvent → Option (List Nat × Option (Command α β γ))
  | RxEvent.read chunk => rxReadStep i2cDec gpioDec ledDec (st ++ chunk)
  | RxEvent.timeout => some ([], none)

/-- The reassembly loop over a finite event trace, collecting the
commands sent to the dispatch queue in order. -/
def runRx (i2cDec : List Nat → Except CommandError α)
    (gpioDec : List Nat → Except CommandError β)
    (ledDec : List Nat → Except CommandError γ)
    (st : List Nat) : List RxEvent → Option (List Nat × List (Command α β γ))
  | [] => some (st, [])
  | e :: es =>
    match rxStep i2cDec gpioDec ledDec st e with
    | none => none
    | some (st2, out) =>
      match runRx i2cDec gpioDec ledDec st2 es with
      | none => none
      | some (stf, outs) => some (stf, out.toList ++ outs)

/-- Spec-side byte code of each error kind (section 6 of the spec). -/
def errCode : CommandError → Nat
  | CommandError.timeout => 0x10
  | CommandError.invalid => 0x11
  | CommandError.bufferOverflow => 0x12
  | CommandError.message _ => 0xff

/-- Spec-side trailing bytes of each error kind: the raw message text
for Message, nothing otherwise. -/
def errExtra : CommandError → List Nat
  | CommandError.message m => m
  | _ => []

/-- Modelled from the spec: the host-side decoder of an error response
frame, which is not part of the firmware sources. Per the Response
Frame layout, byte 0..2 is the total length little-endian, byte 2 the
target id (as i8), byte 3 the error code, and the rest the message. -/
def decodeErrFrame (f : List Nat) : Option (Int × Nat × List Nat) :=
  if 4 ≤ f.length ∧ declaredLen f = f.length then
    some (i8ofByte (f.getD 2 0), f.getD 3 0, f.drop 4)
  else none

/-- A trivial family decoder, used to instantiate the parameterised
development at concrete inputs. -/
def noDec (_ : List Nat) : Except CommandError Unit :=
  Except.error CommandError.invalid

/-- A trivial family handler, used to instantiate the parameterised
development at concrete inputs. -/
def noHandler (_ : Unit) : Except CommandError (List Nat) :=
  Except.error CommandError.invalid

/-- The synthetic-command wrapper applied by pipe_usb_read to the
result of Command.fromBytes before enqueueing. -/
def syntheticOf (r : Except CommandError (Command α β γ)) : Command α β γ :=
  match r with
  | Except.ok c => c
  | Except.error e => ⟨-1, 0, CommandInner.error e⟩

theorem fromBytes_total (i2cDec : List Nat → Except CommandError α)
    (gpioDec : List Nat → Except CommandError β)
    (ledDec : List Nat → Except CommandError γ)
    (l : List Nat) (h : 3 ≤ l.length) :
    ∃ r, Command.fromBytes i2cDec gpioDec ledDec l = some r := by
  match l with
  | [] => simp at h
  | [a] => simp at h
  | [a, b] => simp at h
  | a :: b :: c :: rest => exact ⟨_, rfl⟩

/-- Claim C1: the success response frame for target id 1 and payload
[0x01]. The source writes res.len() into the length field, so the
transmitted bytes are [0x01, 0x00, 0x01, 0x01]: the length field holds
the payload byte count, not the full frame byte count 4 claimed by the
spec invariant and its concrete example [0x04, 0x00, 0x01, 0x01]. -/
theorem success_frame_length_is_payload_length :
    successResponse 1 [1] = [1, 0, 1, 1] ∧
      successResponse 1 [1] ≠ [4, 0, 1, 1] := by
  exact ⟨rfl, by decide⟩

/-- Claim C4: Command.fromBytes on inputs shorter than 3 bytes. The
source indexes buf[0] and buf[2] unconditionally, so these inputs
panic (modelled as none) instead of returning CommandError.invalid as
the claim states; the last conjunct shows the panic is reachable from
the transport via a frame declaring length 3 inside a 5-byte read. -/
theorem fromBytes_short_input_panics
    (i2cDec : List Nat → Except CommandError α)
    (gpioDec : List Nat → Except CommandError β)
    (ledDec : List Nat → Except CommandError γ) :
    Command.fromBytes i2cDec gpioDec ledDec [] = none ∧
      Command.fromBytes i2cDec gpioDec ledDec [7] = none ∧
      Command.fromBytes i2cDec gpioDec ledDec [7, 7] = none ∧
      rxStep i2cDec gpioDec ledDec [] (RxEvent.read [3, 0, 170, 187, 204]) =
        none := by
  refine ⟨rfl, rfl, rfl, ?_⟩
  rfl

/-- Claim C10: the three family tags are the distinct constants 5, 6
and 8, and on any input of at least 3 bytes Command.fromBytes takes
byte 0 as the signed id, byte 1 as the bus, and dispatches the payload
from byte 3 on to exactly the family decoder selected by byte 2, any
other tag yielding CommandError.invalid. -/
theorem fromBytes_dispatch
    (i2cDec : List Nat → Except CommandError α)
    (gpioDec : List Nat → Except CommandError β)
    (ledDec : List Nat → Except CommandError γ)
    (b0 b1 b2 : Nat) (rest : List Nat) :
    (I2C_COMMAND = 5 ∧ GPIO_COMMAND = 6 ∧ LED_COMMAND = 8 ∧
      I2C_COMMAND ≠ GPIO_COMMAND ∧ I2C_COMMAND ≠ LED_COMMAND ∧
      GPIO_COMMAND ≠ LED_COMMAND) ∧
    Command.fromBytes i2cDec gpioDec ledDec (b0 :: b1 :: b2 :: rest) =
      some (if b2 = 5 then
          (i2cDec rest).map fun c => ⟨i8ofByte b0, b1, CommandInner.i2c c⟩
        else if b2 = 6 then
          (gpioDec rest).map fun c => ⟨i8ofByte b0, b1, CommandInner.gpio c⟩
        else if b2 = 8 then
          (ledDec rest).map fun c => ⟨i8ofByte b0, b1, CommandInner.led c⟩
        else Except.error CommandError.invalid) := by
  exact ⟨⟨rfl, rfl, rfl, by decide, by decide, by decide⟩, rfl⟩

theorem toBytes_eq (e : CommandError) (h : (errExtra e).length ≤ 256) :
    CommandError.toBytes e =
      some (le16 ((errExtra e).length + 4) ++ 0xff :: errCode e :: errExtra e) := by
  cases e with
  | message m =>
    have hc : (CommandError.rawBody (CommandError.message m)).length ≤ 260 := by
      simp [CommandError.rawBody]
      simpa [errExtra] using h
    have hl : (CommandError.rawBody (CommandError.message m)).length =
        m.length + 4 := by
      simp [CommandError.rawBody]
    simp only [CommandError.toBytes]
    rw [if_pos hc, hl]
    rfl
  | timeout => rfl
  | invalid => rfl
  | bufferOverflow => rfl

theorem rxReadStep_extract (i2cDec : List Nat → Except CommandError α)
    (gpioDec : List Nat → Except CommandError β)
    (ledDec : List Nat → Except CommandError γ)
    (b : List Nat) (h5 : 5 ≤ b.length)
    (hle : declaredLen b ≤ b.length) (h2 : 2 ≤ declaredLen b)
    (r : Except CommandError (Command α β γ))
    (hr : Command.fromBytes i2cDec gpioDec ledDec
        ((b.drop 2).take (declaredLen b - 2)) = some r) :
    rxReadStep i2cDec gpioDec ledDec b =
      some (b.drop (declaredLen b), some (syntheticOf r)) := by
  unfold rxReadStep
  rw [if_pos h5, if_pos hle, if_neg (by omega), hr]
  cases r with
  | ok c => rfl
  | error e => rfl

/-- Claim C2, counterexample: the complete frame [0x05, 0x00, 0x01,
0x00, 0xEE] has target id 1 and the unrecognised family tag 0xEE; the
reassembler enqueues the synthetic command with id -1, and the
controller transmits the error frame [0x04, 0x00, 0xFF, 0x11]: its
target-id byte is 0xFF (-1 as u8), not the original request id 1 the
claim demands. -/
theorem invalid_tag_reports_minus_one_cex :
    runRx noDec noDec noDec [] [RxEvent.read [5, 0, 1, 0, 0xEE]] =
      some ([], [⟨-1, 0, CommandInner.error CommandError.invalid⟩]) ∧
    controllerStep noHandler noHandler noHandler
        ⟨-1, 0, CommandInner.error CommandError.invalid⟩ =
      some [4, 0, 0xff, 0x11] ∧
    [4, 0, 0xff, 0x11].getD 2 0 ≠ 1 := by
  exact ⟨rfl, rfl, by decide⟩

/-- Claim C2 (amended): a fully reassembled frame whose family tag is
none of 5, 6, 8 decodes to CommandError.invalid and is enqueued as the
synthetic command with target id -1; the controller replies with the
error frame [0x04, 0x00, 0xFF, 0x11], i.e. error code 0x11 and
target-id byte 0xFF (-1 as u8, not the original request id, which the
decode failure discards). -/
theorem invalid_tag_error_response
    (i2cDec : List Nat → Except CommandError α)
    (gpioDec : List Nat → Except CommandError β)
    (ledDec : List Nat → Except CommandError γ)
    (hI : α → Except CommandError (List Nat))
    (hG : β → Except CommandError (List Nat))
    (hL : γ → Except CommandError (List Nat))
    (f0 f1 idb bus tag : Nat) (payload : List Nat)
    (hlen : f0 + 256 * f1 = payload.length + 5)
    (h5 : tag ≠ 5) (h6 : tag ≠ 6) (h8 : tag ≠ 8) :
    rxStep i2cDec gpioDec ledDec []
        (RxEvent.read (f0 :: f1 :: idb :: bus :: tag :: payload)) =
      some ([], some ⟨-1, 0, CommandInner.error CommandError.invalid⟩) ∧
    controllerStep hI hG hL ⟨-1, 0, CommandInner.error CommandError.invalid⟩ =
      some [4, 0, 0xff, 0x11] := by
  refine ⟨?_, rfl⟩
  have hd : declaredLen (f0 :: f1 :: idb :: bus :: tag :: payload) =
      payload.length + 5 := by
    have h : declaredLen (f0 :: f1 :: idb :: bus :: tag :: payload) =
        f0 + 256 * f1 := rfl
    omega
  have hblen : (f0 :: f1 :: idb :: bus :: tag :: payload).length =
      payload.length + 5 := by simp
  have hfb : Command.fromBytes i2cDec gpioDec ledDec
      (idb :: bus :: tag :: payload) =
      some (Except.error CommandError.invalid) := by
    simp [Command.fromBytes, I2C_COMMAND, GPIO_COMMAND, LED_COMMAND, h5, h6, h8]
  have hslice :
      (((f0 :: f1 :: idb :: bus :: tag :: payload).drop 2).take
        (declaredLen (f0 :: f1 :: idb :: bus :: tag :: payload) - 2)) =
      idb :: bus :: tag :: payload := by
    rw [hd]
    have h3 : payload.length + 5 - 2 = payload.length + 3 := by omega
    rw [h3]
    show (idb :: bus :: tag :: payload).take (payload.length + 3) = _
    refine List.take_of_length_le ?_
    simp
  have hstep := rxReadStep_extract i2cDec gpioDec ledDec
    (f0 :: f1 :: idb :: bus :: tag :: payload)
    (by simp) (by rw [hd, hblen]) (by omega)
    (Except.error CommandError.invalid) (by rw [hslice]; exact hfb)
  have hdrop : (f0 :: f1 :: idb :: bus :: tag :: payload).drop
      (declaredLen (f0 :: f1 :: idb :: bus :: tag :: payload)) = [] := by
    rw [hd, ← hblen]
    exact List.drop_length _
  show rxReadStep i2cDec gpioDec ledDec
      ([] ++ f0 :: f1 :: idb :: bus :: tag :: payload) = _
  rw [List.nil_append, hstep, hdrop]
  rfl

/-- Claim C2, witness for the amended theorem at the concrete frame
[0x05, 0x00, 0x01, 0x00, 0xEE]. -/
theorem invalid_tag_error_response_witness :
    rxStep noDec noDec noDec []
        (RxEvent.read [5, 0, 1, 0, 0xEE]) =
      some ([], some ⟨-1, 0, CommandInner.error CommandError.invalid⟩) ∧
    controllerStep noHandler noHandler noHandler
        ⟨-1, 0, CommandInner.error CommandError.invalid⟩ =
      some [4, 0, 0xff, 0x11] :=
  invalid_tag_error_response noDec noDec noDec noHandler noHandler noHandler
    5 0 1 0 0xEE [] (by decide) (by decide) (by decide) (by decide)

/-- Claim C3: a reassembled frame whose body fails to decode is not
dropped: the reassembler enqueues the synthetic command with id -1,
bus 0 and the decode error as body, and the controller turns that one
command into exactly one error response frame whose target-id byte is
0xFF, the u8 cast of -1. -/
theorem decode_failure_synthetic_command
    (i2cDec : List Nat → Except CommandError α)
    (gpioDec : List Nat → Except CommandError β)
    (ledDec : List Nat → Except CommandError γ)
    (hI : α → Except CommandError (List Nat))
    (hG : β → Except CommandError (List Nat))
    (hL : γ → Except CommandError (List Nat))
    (st chunk : List Nat) (e : CommandError)
    (h5 : 5 ≤ (st ++ chunk).length)
    (hle : declaredLen (st ++ chunk) ≤ (st ++ chunk).length)
    (h2 : 2 ≤ declaredLen (st ++ chunk))
    (hfb : Command.fromBytes i2cDec gpioDec ledDec
        (((st ++ chunk).drop 2).take (declaredLen (st ++ chunk) - 2)) =
      some (Except.error e))
    (hmsg : (errExtra e).length ≤ 256) :
    rxStep i2cDec gpioDec ledDec st (RxEvent.read chunk) =
      some ((st ++ chunk).drop (declaredLen (st ++ chunk)),
            some ⟨-1, 0, CommandInner.error e⟩) ∧
    controllerStep hI hG hL ⟨-1, 0, CommandInner.error e⟩ =
      some (le16 ((errExtra e).length + 4) ++
        0xff :: errCode e :: errExtra e) := by
  constructor
  · show rxReadStep i2cDec gpioDec ledDec (st ++ chunk) = _
    exact rxReadStep_extract i2cDec gpioDec ledDec (st ++ chunk)
      h5 hle h2 (Except.error e) hfb
  · show (CommandError.toBytes e).map
        (fun b => b.set 2 (u8ofInt (-1))) = _
    rw [toBytes_eq e hmsg]
    have hu : u8ofInt (-1) = 0xff := rfl
    rw [hu]
    cases e <;> rfl

/-- Claim C3, witness at the concrete invalid-tag frame [0x05, 0x00,
0x01, 0x00, 0xEE] delivered in one read from the empty buffer. -/
theorem decode_failure_synthetic_command_witness :
    rxStep noDec noDec noDec [] (RxEvent.read [5, 0, 1, 0, 0xEE]) =
      some (([] ++ [5, 0, 1, 0, 0xEE]).drop
              (declaredLen ([] ++ [5, 0, 1, 0, 0xEE])),
            some ⟨-1, 0, CommandInner.error CommandError.invalid⟩) ∧
    controllerStep noHandler noHandler noHandler
        ⟨-1, 0, CommandInner.error CommandError.invalid⟩ =
      some (le16 ((errExtra CommandError.invalid).length + 4) ++
        0xff :: errCode CommandError.invalid ::
          errExtra CommandError.invalid) :=
  decode_failure_synthetic_command noDec noDec noDec
    noHandler noHandler noHandler [] [5, 0, 1, 0, 0xEE]
    CommandError.invalid (by decide) (by decide) (by decide) rfl (by decide)

/-- Claim C5, counterexample: two complete frames (ids 1 and 2, both
with the invalid tag 0xEE so decoding is decoder-independent) are
delivered concatenated in a single read, followed by the read timeout.
Only one command is ever enqueued — the source checks for a complete
frame once per read event, so the second frame still sits in the buffer
when the timeout discards it — refuting the claim that each frame of a
burst yields a separate Command with no bytes lost. -/
theorem burst_second_frame_lost_cex :
    runRx noDec noDec noDec []
        [RxEvent.read ([5, 0, 1, 0, 0xEE] ++ [5, 0, 2, 0, 0xEE]),
         RxEvent.timeout] =
      some ([], [⟨-1, 0, CommandInner.error CommandError.invalid⟩]) ∧
    [(⟨-1, 0, CommandInner.error CommandError.invalid⟩ :
        Command Unit Unit Unit)].length ≠ 2 := by
  exact ⟨rfl, by decide⟩

/-- Claim C5 (amended): whenever after a read the buffer holds
filled >= declared_length bytes (with a well-formed declared length of
at least 5), the reassembler decodes bytes [2..declared_length) as one
Command — a decode error becoming the synthetic id -1 command — and
keeps exactly the leftover bytes [declared_length..filled) as the new
buffer front. At most one frame is extracted per read event, so the
later frames of a single-burst read are decoded only if further read
events arrive before the timeout; a complete frame still buffered when
the timeout fires is discarded. -/
theorem frame_extraction_step
    (i2cDec : List Nat → Except CommandError α)
    (gpioDec : List Nat → Except CommandError β)
    (ledDec : List Nat → Except CommandError γ)
    (st chunk : List Nat)
    (h5 : 5 ≤ (st ++ chunk).length)
    (hd5 : 5 ≤ declaredLen (st ++ chunk))
    (hle : declaredLen (st ++ chunk) ≤ (st ++ chunk).length) :
    ∃ r, Command.fromBytes i2cDec gpioDec ledDec
        (((st ++ chunk).drop 2).take (declaredLen (st ++ chunk) - 2)) =
          some r ∧
      rxStep i2cDec gpioDec ledDec st (RxEvent.read chunk) =
        some ((st ++ chunk).drop (declaredLen (st ++ chunk)),
              some (syntheticOf r)) := by
  have hlen3 : 3 ≤ (((st ++ chunk).drop 2).take
      (declaredLen (st ++ chunk) - 2)).length := by
    rw [List.length_take, List.length_drop]
    omega
  obtain ⟨r, hr⟩ := fromBytes_total i2cDec gpioDec ledDec _ hlen3
  refine ⟨r, hr, ?_⟩
  show rxReadStep i2cDec gpioDec ledDec (st ++ chunk) = _
  exact rxReadStep_extract i2cDec gpioDec ledDec (st ++ chunk)
    h5 hle (by omega) r hr

/-- Claim C5, witness for the amended theorem at a single complete
frame read into the empty buffer. -/
theorem frame_extraction_step_witness :
    ∃ r, Command.fromBytes noDec noDec noDec
        ((([] ++ [5, 0, 1, 0, 0xEE]).drop 2).take
          (declaredLen ([] ++ [5, 0, 1, 0, 0xEE]) - 2)) = some r ∧
      rxStep noDec noDec noDec [] (RxEvent.read [5, 0, 1, 0, 0xEE]) =
        some (([] ++ [5, 0, 1, 0, 0xEE]).drop
                (declaredLen ([] ++ [5, 0, 1, 0, 0xEE])),
              some (syntheticOf r)) :=
  frame_extraction_step noDec noDec noDec [] [5, 0, 1, 0, 0xEE]
    (by decide) (by decide) (by decide)

/-- Claim C6: a read timeout resets the fill count to 0 and emits no
command and no error frame for the abandoned partial bytes (the source
builds a CommandError.timeout value but never sends it), and from any
prior buffer state a timeout followed by a read of one complete frame
decodes exactly that frame — the abandoned bytes cause no
corruption. -/
theorem timeout_resync
    (i2cDec : List Nat → Except CommandError α)
    (gpioDec : List Nat → Except CommandError β)
    (ledDec : List Nat → Except CommandError γ)
    (st F : List Nat)
    (h5 : 5 ≤ F.length) (hdl : declaredLen F = F.length) :
    rxStep i2cDec gpioDec ledDec st RxEvent.timeout = some ([], none) ∧
    ∃ r, Command.fromBytes i2cDec gpioDec ledDec
        ((F.drop 2).take (declaredLen F - 2)) = some r ∧
      runRx i2cDec gpioDec ledDec st [RxEvent.timeout, RxEvent.read F] =
        some ([], [syntheticOf r]) := by
  refine ⟨rfl, ?_⟩
  have hlen3 : 3 ≤ ((F.drop 2).take (declaredLen F - 2)).length := by
    rw [List.length_take, List.length_drop]
    omega
  obtain ⟨r, hr⟩ := fromBytes_total i2cDec gpioDec ledDec _ hlen3
  refine ⟨r, hr, ?_⟩
  have hstep := rxReadStep_extract i2cDec gpioDec ledDec F
    h5 (le_of_eq hdl) (by omega) r hr
  have hdrop : F.drop (declaredLen F) = [] := by
    rw [hdl]
    exact List.drop_length F
  rw [hdrop] at hstep
  simp only [runRx, rxStep, List.nil_append, hstep, Option.toList]
  rfl

/-- Claim C6, witness: an abandoned partial buffer [9, 9, 9], a
timeout, then the complete frame [0x05, 0x00, 0x01, 0x00, 0xEE]. -/
theorem timeout_resync_witness :
    rxStep noDec noDec noDec [9, 9, 9] RxEvent.timeout = some ([], none) ∧
    ∃ r, Command.fromBytes noDec noDec noDec
        (([5, 0, 1, 0, 0xEE].drop 2).take
          (declaredLen [5, 0, 1, 0, 0xEE] - 2)) = some r ∧
      runRx noDec noDec noDec [9, 9, 9]
          [RxEvent.timeout, RxEvent.read [5, 0, 1, 0, 0xEE]] =
        some ([], [syntheticOf r]) :=
  timeout_resync noDec noDec noDec [9, 9, 9] [5, 0, 1, 0, 0xEE]
    (by decide) (by decide)

theorem rawBody_length (e : CommandError) :
    (CommandError.rawBody e).length = (errExtra e).length + 4 := by
  cases e <;> simp [CommandError.rawBody, errExtra]

theorem i8_u8_roundtrip (i : Int) (h1 : -128 ≤ i) (h2 : i ≤ 127) :
    i8ofByte (u8ofInt i) = i := by
  simp only [i8ofByte, u8ofInt]
  split <;> omega

/-- Claim C7: the transmitted error frame for error e and target id I
is [length u16 LE][I as u8][code][message bytes], with codes
Timeout = 0x10, Invalid = 0x11, BufferOverflow = 0x12, Message = 0xFF,
the length field equal to the full frame byte count (message length
plus 4), and decoding that frame recovers I, the code and the message
exactly. -/
theorem error_frame_roundtrip (id : Int) (e : CommandError)
    (h1 : -128 ≤ id) (h2 : id ≤ 127)
    (hmsg : (errExtra e).length ≤ 256) :
    (errCode CommandError.timeout = 0x10 ∧
      errCode CommandError.invalid = 0x11 ∧
      errCode CommandError.bufferOverflow = 0x12 ∧
      ∀ m, errCode (CommandError.message m) = 0xff) ∧
    (CommandError.toBytes e).map (fun b => b.set 2 (u8ofInt id)) =
      some (le16 ((errExtra e).length + 4) ++
        u8ofInt id :: errCode e :: errExtra e) ∧
    decodeErrFrame (le16 ((errExtra e).length + 4) ++
        u8ofInt id :: errCode e :: errExtra e) =
      some (id, errCode e, errExtra e) := by
  refine ⟨⟨rfl, rfl, rfl, fun m => rfl⟩, ?_, ?_⟩
  · rw [toBytes_eq e hmsg]
    rfl
  · have hflen : (le16 ((errExtra e).length + 4) ++
        u8ofInt id :: errCode e :: errExtra e).length =
        (errExtra e).length + 4 := by
      simp [le16]
    have hdecl : declaredLen (le16 ((errExtra e).length + 4) ++
        u8ofInt id :: errCode e :: errExtra e) =
        (errExtra e).length + 4 := by
      show ((errExtra e).length + 4) % 256 +
          256 * (((errExtra e).length + 4) / 256 % 256) =
        (errExtra e).length + 4
      omega
    unfold decodeErrFrame
    rw [if_pos ⟨by rw [hflen]; omega, by rw [hdecl, hflen]⟩]
    show some (i8ofByte (u8ofInt id), errCode e, errExtra e) = _
    rw [i8_u8_roundtrip id h1 h2]

/-- Claim C7, witness at target id 1 and the error Message "x"
(byte 0x78). -/
theorem error_frame_roundtrip_witness :
    (errCode CommandError.timeout = 0x10 ∧
      errCode CommandError.invalid = 0x11 ∧
      errCode CommandError.bufferOverflow = 0x12 ∧
      ∀ m, errCode (CommandError.message m) = 0xff) ∧
    (CommandError.toBytes (CommandError.message [0x78])).map
        (fun b => b.set 2 (u8ofInt 1)) =
      some (le16 ((errExtra (CommandError.message [0x78])).length + 4) ++
        u8ofInt 1 :: errCode (CommandError.message [0x78]) ::
          errExtra (CommandError.message [0x78])) ∧
    decodeErrFrame (le16 ((errExtra (CommandError.message [0x78])).length + 4) ++
        u8ofInt 1 :: errCode (CommandError.message [0x78]) ::
          errExtra (CommandError.message [0x78])) =
      some (1, errCode (CommandError.message [0x78]),
        errExtra (CommandError.message [0x78])) :=
  error_frame_roundtrip 1 (CommandError.message [0x78])
    (by decide) (by decide) (by decide)

/-- Claim C8, counterexample: a Message whose text is 257 bytes of 0x78
makes the pushes of to_bytes exceed the 260-byte capacity; the source
unwraps the resulting capacity error, i.e. it panics (modelled none) —
no CommandError.bufferOverflow is ever reported. -/
theorem oversize_message_panics_cex :
    CommandError.toBytes (CommandError.message (List.replicate 257 0x78)) =
      none := by
  have hlen : (errExtra (CommandError.message
      (List.replicate 257 0x78))).length = 257 := by
    show (List.replicate 257 0x78).length = 257
    exact List.length_replicate 257 0x78
  unfold CommandError.toBytes
  rw [rawBody_length]
  rw [if_neg (by omega)]

/-- Claim C8 (amended): error-frame encoding fails exactly when the
Message text exceeds 256 bytes (4 header and code bytes of the 260
capacity are always used; the other variants always fit), and that
failure is an unwrap panic, not a reported BufferOverflow; within
capacity the encoding is exact, with no truncation. The success
encoder's payload is type-bounded at 256 bytes and always fits. -/
theorem toBytes_failure_iff (e : CommandError) :
    (CommandError.toBytes e = none ↔ 256 < (errExtra e).length) ∧
    ((errExtra e).length ≤ 256 →
      CommandError.toBytes e =
        some (le16 ((errExtra e).length + 4) ++
          0xff :: errCode e :: errExtra e)) := by
  refine ⟨?_, fun h => toBytes_eq e h⟩
  unfold CommandError.toBytes
  rw [rawBody_length]
  by_cases h : (errExtra e).length + 4 ≤ 260
  · rw [if_pos h]
    constructor
    · intro hc
      simp at hc
    · intro hc
      exact absurd h (by omega)
  · rw [if_neg h]
    constructor
    · intro _
      omega
    · intro _
      rfl

/-- Claim C8, witness for the amended theorem: the one-byte Message
text 0x78 is within capacity and encodes exactly. -/
theorem toBytes_failure_iff_witness :
    (errExtra (CommandError.message [0x78])).length ≤ 256 ∧
    CommandError.toBytes (CommandError.message [0x78]) =
      some (le16 ((errExtra (CommandError.message [0x78])).length + 4) ++
        0xff :: errCode (CommandError.message [0x78]) ::
          errExtra (CommandError.message [0x78])) :=
  ⟨by decide, (toBytes_failure_iff (CommandError.message [0x78])).2 (by decide)⟩

/-- Claim C9: over any finite list of dequeued commands, the
controller loop transmits exactly one response frame per command —
output count equals input count — and the i-th transmitted frame is
the encoding of the i-th command's execution, i.e. strictly FIFO with
no reordering; execution is sequential by construction (the loop runs
each command to completion before receiving the next). -/
theorem controller_one_response_per_command
    (hI : α → Except CommandError (List Nat))
    (hG : β → Except CommandError (List Nat))
    (hL : γ → Except CommandError (List Nat))
    (cmds : List (Command α β γ)) (out : List (List Nat))
    (h : controllerRun hI hG hL cmds = some out) :
    out.length = cmds.length ∧
      ∀ i (h1 : i < cmds.length) (h2 : i < out.length),
        controllerStep hI hG hL (cmds.get ⟨i, h1⟩) =
          some (out.get ⟨i, h2⟩) := by
  induction cmds generalizing out with
  | nil =>
    have h2 : some ([] : List (List Nat)) = some out := h
    injection h2 with h3
    subst h3
    exact ⟨rfl, fun i h1 _ => absurd h1 (by simp)⟩
  | cons c cs ih =>
    cases hc : controllerStep hI hG hL c with
    | none =>
      rw [show controllerRun hI hG hL (c :: cs) =
            match controllerStep hI hG hL c with
            | none => none
            | some f =>
              match controllerRun hI hG hL cs with
              | none => none
              | some rest => some (f :: rest) from rfl, hc] at h
      exact Option.noConfusion h
    | some f =>
      cases hr : controllerRun hI hG hL cs with
      | none =>
        rw [show controllerRun hI hG hL (c :: cs) =
              match controllerStep hI hG hL c with
              | none => none
              | some f =>
                match controllerRun hI hG hL cs with
                | none => none
                | some rest => some (f :: rest) from rfl, hc, hr] at h
        exact Option.noConfusion h
      | some rest =>
        rw [show controllerRun hI hG hL (c :: cs) =
              match controllerStep hI hG hL c with
              | none => none
              | some f =>
                match controllerRun hI hG hL cs with
                | none => none
                | some rest => some (f :: rest) from rfl, hc, hr] at h
        injection h with h3
        subst h3
        obtain ⟨hlen, hget⟩ := ih rest hr
        refine ⟨by simp only [List.length_cons, hlen], ?_⟩
        intro i h1 h2
        cases i with
        | zero => exact hc
        | succ n =>
          exact hget n (Nat.lt_of_succ_lt_succ h1) (Nat.lt_of_succ_lt_succ h2)

/-- Claim C9, witness: one dequeued command (an error body, so no
peripheral handler runs) yields exactly the one frame
[0x04, 0x00, 0x01, 0x10]. -/
theorem controller_one_response_per_command_witness :
    ([[4, 0, 1, 0x10]] : List (List Nat)).length =
      [(⟨1, 0, CommandInner.error CommandError.timeout⟩ :
          Command Unit Unit Unit)].length ∧
    ∀ i (h1 : i < [(⟨1, 0, CommandInner.error CommandError.timeout⟩ :
          Command Unit Unit Unit)].length)
      (h2 : i < ([[4, 0, 1, 0x10]] : List (List Nat)).length),
      controllerStep noHandler noHandler noHandler
          ([(⟨1, 0, CommandInner.error CommandError.timeout⟩ :
              Command Unit Unit Unit)].get ⟨i, h1⟩) =
        some (([[4, 0, 1, 0x10]] : List (List Nat)).get ⟨i, h2⟩) :=
  controller_one_response_per_command noHandler noHandler noHandler
    [⟨1, 0, CommandInner.error CommandError.timeout⟩] [[4, 0, 1, 0x10]] rfl

end Adit
